import Mathlib

/-!
Shallow embedding of the maintenance/stock backend (src/backend/main.go).

The backend stores its state in SQL tables (operators, machines, sensors,
stock, maintenance, maintenance_stock).  Each table is embedded as a list of
rows; a whole database state is the structure `DB`.  Every HTTP handler that
the claims mention is embedded as a pure function on `DB`.

SQL semantics reproduced by the embedding:
  * an `INSERT` fails (unique-key violation) when a row with the same primary
    key is already present; on any failure inside a transaction the handler
    calls `tx.Rollback()` and the database is left exactly as it was, which
    the embedding models by returning the original `DB` next to the error;
  * an `UPDATE ... WHERE c = ?` touches every row matching the condition and
    is a silent no-op when no row matches (the Go code never inspects the
    affected-row count);
  * a `DELETE ... WHERE ...` removes every matching row and never fails.

Quantities are `Int` (Go `int` / SQLite INTEGER; the claim-relevant range is
tiny, so overflow does not matter, while signedness does).  The float-typed
`value` column of the stock table is not used by any claim and is omitted.
-/

/-- Row of the `operators` table (`id TEXT PRIMARY KEY, name TEXT`). -/
structure Operator where
  id : String
  name : String
deriving DecidableEq, Repr

/-- Row of the `machines` table (`id, name, status, operatorId` — the table
stores only these four columns; `operatorId` is nullable). -/
structure MachineRow where
  id : String
  name : String
  status : String
  operatorId : Option String
deriving DecidableEq, Repr

/-- Row of the `sensors` table (`id, name, type, machineId`). -/
structure SensorRow where
  id : String
  name : String
  type : String
  machineId : String
deriving DecidableEq, Repr

/-- Row of the `stock` table (`id, name, quantity, unit, value, location`).
The REAL-typed `value` column is omitted (no claim mentions it). -/
structure StockItem where
  id : String
  name : String
  quantity : Int
  unit : String
  location : String
deriving DecidableEq, Repr

/-- One `usedStock` entry of a maintenance request or response (Go struct
`UsedStockItem`). -/
structure UsedStockItem where
  stockId : String
  quantity : Int
deriving DecidableEq, Repr

/-- The JSON shape of a maintenance request or response (Go struct
`Maintenance`). -/
structure Maintenance where
  id : String
  machineId : String
  date : String
  description : String
  status : String
  usedStock : List UsedStockItem
deriving DecidableEq, Repr

/-- Row of the `maintenance` table
(`id PRIMARY KEY, machineId, date, description, status`). -/
structure MaintRow where
  id : String
  machineId : String
  date : String
  description : String
  status : String
deriving DecidableEq, Repr

/-- Row of the `maintenance_stock` table
(`maintenanceId, stockId, quantity`, `PRIMARY KEY(maintenanceId, stockId)`). -/
structure MSRow where
  maintenanceId : String
  stockId : String
  quantity : Int
deriving DecidableEq, Repr

/-- The whole database state. -/
structure DB where
  operators : List Operator
  machines : List MachineRow
  sensors : List SensorRow
  stock : List StockItem
  maintenance : List MaintRow
  maintenanceStock : List MSRow
deriving DecidableEq, Repr

/-- Errors a handler can surface (mapped by the Go code to HTTP 500/404). -/
inductive SqlErr where
  | uniqueViolation
  | notFound
deriving DecidableEq, Repr

/-- Models `UPDATE stock SET quantity = quantity + d WHERE id = sid`: adds
`d` to every matching row's quantity; silent no-op when no row matches.  The
Go code issues it with `d = -item.Quantity` in `createMaintenance` and with
`d = +item.Quantity` in `deleteMaintenance`. -/
def updStockQty (d : Int) (sid : String) (l : List StockItem) :
    List StockItem :=
  l.map (fun s => if s.id == sid then { s with quantity := s.quantity + d }
                  else s)

/-- The per-entry loop of `createMaintenance` (main.go lines 952-975): for
each `usedStock` entry, first `INSERT` the `maintenance_stock` row (failing
on a duplicate `(maintenanceId, stockId)` primary key), then
`UPDATE stock SET quantity = quantity - ?`.  No existence or quantity check
of any kind is performed before the deduction. -/
def createStockLoop (mid : String) (items : List UsedStockItem) (db : DB) :
    Except SqlErr DB :=
  match items with
  | [] => .ok db
  | item :: rest =>
    if db.maintenanceStock.any (fun r => r.maintenanceId == mid &&
        r.stockId == item.stockId) then .error .uniqueViolation
    else
      createStockLoop mid rest
        { db with
          maintenanceStock :=
            db.maintenanceStock ++ [⟨mid, item.stockId, item.quantity⟩],
          stock := updStockQty (-item.quantity) item.stockId db.stock }

/-- Handler for `POST /api/maintenance` (main.go `createMaintenance`, lines
914-982).  `newId` is the freshly generated UUID.  The maintenance row is
stored with the status literal `"scheduled"` (line 936) regardless of the
request's status field; the response echoes the decoded request with only
its id replaced.  On any failure `tx.Rollback()` restores the database, so
the error case returns the input `db` unchanged. -/
def createMaintenance (newId : String) (req : Maintenance) (db : DB) :
    Except SqlErr Maintenance × DB :=
  if db.maintenance.any (fun m => m.id == newId) then
    (.error .uniqueViolation, db)
  else
    match createStockLoop newId req.usedStock
        { db with maintenance := db.maintenance ++
            [⟨newId, req.machineId, req.date, req.description, "scheduled"⟩] } with
    | .error e => (.error e, db)
    | .ok db2 => (.ok { req with id := newId }, db2)

/-- Handler for `GET /api/maintenance/{id}` (main.go `getMaintenance`, lines
984-1014): `none` models the 404 answer. -/
def getMaintenance (id : String) (db : DB) : Option Maintenance :=
  match db.maintenance.find? (fun m => m.id == id) with
  | none => none
  | some m =>
    some { id := m.id, machineId := m.machineId, date := m.date,
           description := m.description, status := m.status,
           usedStock :=
             (db.maintenanceStock.filter
               (fun r => r.maintenanceId == id)).map
               (fun r => ⟨r.stockId, r.quantity⟩) }

/-- The per-entry loop of `updateMaintenance` (main.go lines 1052-1059):
inserts the new `maintenance_stock` rows (failing on a duplicate primary
key); it never touches the `stock` table. -/
def updateStockLoop (mid : String) (items : List UsedStockItem) (db : DB) :
    Except SqlErr DB :=
  match items with
  | [] => .ok db
  | item :: rest =>
    if db.maintenanceStock.any (fun r => r.maintenanceId == mid &&
        r.stockId == item.stockId) then .error .uniqueViolation
    else
      updateStockLoop mid rest
        { db with maintenanceStock :=
            db.maintenanceStock ++ [⟨mid, item.stockId, item.quantity⟩] }

/-- Handler for `PUT /api/maintenance/{id}` (main.go `updateMaintenance`,
lines 1016-1066).  Steps, all inside one transaction: `UPDATE maintenance
SET ... WHERE id = ?` (a silent no-op when the id is unknown; there is no
existence check), `DELETE FROM maintenance_stock WHERE maintenanceId = ?`,
then insert the new rows.  Stock quantities are never touched.  On failure
the transaction rolls back (input `db` returned); on success the response
echoes the decoded request verbatim (the Go code does not even overwrite
`maint.ID` with the path id). -/
def updateMaintenance (id : String) (req : Maintenance) (db : DB) :
    Except SqlErr Maintenance × DB :=
  match updateStockLoop id req.usedStock
      { db with
        maintenance := db.maintenance.map (fun (m : MaintRow) =>
          if m.id == id then
            { m with machineId := req.machineId, date := req.date,
                     description := req.description, status := req.status }
          else m),
        maintenanceStock :=
          db.maintenanceStock.filter (fun r => !(r.maintenanceId == id)) } with
  | .error e => (.error e, db)
  | .ok db3 => (.ok req, db3)

/-- Handler for `DELETE /api/maintenance/{id}` (main.go `deleteMaintenance`,
lines 1068-1128).  Reads the record's `maintenance_stock` rows, adds each
row's quantity back onto the matching stock row (`UPDATE stock SET quantity
= quantity + ?` — a no-op when the stock item no longer exists), deletes the
rows and the maintenance row, and answers 204.  There is no existence check
on `id`; the handler never fails. -/
def deleteMaintenance (id : String) (db : DB) : DB × Nat :=
  let used := (db.maintenanceStock.filter
      (fun r => r.maintenanceId == id)).map (fun r => (r.stockId, r.quantity))
  let stock2 := used.foldl (fun acc p => updStockQty p.2 p.1 acc) db.stock
  ({ db with stock := stock2,
             maintenanceStock :=
               db.maintenanceStock.filter (fun r => !(r.maintenanceId == id)),
             maintenance := db.maintenance.filter (fun m => !(m.id == id)) },
   204)

/-- Models `DELETE FROM stock WHERE id = ?` (main.go `deleteStockItem`,
lines 1243-1250): unconditional delete, no reference check against
`maintenance_stock`. -/
def deleteStockItemRaw (id : String) (db : DB) : DB :=
  { db with stock := db.stock.filter (fun s => !(s.id == id)) }

/-- Handler for `DELETE /api/stock/{id}`: the surrounding `stockItemHandler`
(main.go lines 1143-1170) answers 404 when no stock row with that id exists,
otherwise dispatches to `deleteStockItem`. -/
def deleteStockItemH (id : String) (db : DB) : Except SqlErr DB :=
  if db.stock.any (fun s => s.id == id) then .ok (deleteStockItemRaw id db)
  else .error .notFound

/-- The per-machine effect of `UPDATE machines SET operatorId = NULL WHERE
operatorId = ?` (main.go line 361). -/
def clearOperatorRef (id : String) (m : MachineRow) : MachineRow :=
  if m.operatorId == some id then { m with operatorId := none } else m

/-- Go function `deleteOperator` (main.go lines 359-373): `UPDATE machines
SET operatorId = NULL WHERE operatorId = ?`, then `DELETE FROM operators
WHERE id = ?`. -/
def deleteOperatorRaw (id : String) (db : DB) : DB :=
  { db with machines := db.machines.map (clearOperatorRef id),
            operators := db.operators.filter (fun o => !(o.id == id)) }

/-- Handler for `DELETE /api/operators/{id}`: the surrounding
`operatorHandler` (main.go lines 259-286) answers 404 when no operator with
that id exists, otherwise dispatches to `deleteOperator`. -/
def deleteOperatorH (id : String) (db : DB) : Except SqlErr DB :=
  if db.operators.any (fun o => o.id == id) then .ok (deleteOperatorRaw id db)
  else .error .notFound

/-! Observables used by the claims. -/

/-- Total quantity a `usedStock` list requests for a given stock id. -/
def reqTotal (sid : String) (items : List UsedStockItem) : Int :=
  ((items.filter (fun e => e.stockId == sid)).map (fun e => e.quantity)).sum

/-- Quantity on hand recorded in the `stock` table for a given id (summed,
so the definition makes sense even without a uniqueness assumption). -/
def onHand (sid : String) (stock : List StockItem) : Int :=
  ((stock.filter (fun s => s.id == sid)).map (fun s => s.quantity)).sum

/-- A `maintenance_stock` row is anchored when a maintenance record with its
`maintenanceId` exists. -/
def anchored (maint : List MaintRow) (r : MSRow) : Bool :=
  maint.any (fun m => m.id == r.maintenanceId)

/-- Total quantity the anchored `maintenance_stock` rows reserve for a given
stock id (list-level version). -/
def resExL (maint : List MaintRow) (ms : List MSRow) (sid : String) : Int :=
  ((ms.filter (fun r => r.stockId == sid && anchored maint r)).map
    (fun r => r.quantity)).sum

/-- Total quantity reserved for a stock id across the rows of the
currently-existing maintenance records. -/
def resEx (sid : String) (db : DB) : Int :=
  resExL db.maintenance db.maintenanceStock sid

/-- The conservation quantity of the spec: on-hand plus
reserved-by-existing-records, for one stock id. -/
def ledgerSum (sid : String) (db : DB) : Int :=
  onHand sid db.stock + resEx sid db

/-- Quantity a single maintenance record reserves for a given stock id. -/
def reservedBy (mid sid : String) (db : DB) : Int :=
  ((db.maintenanceStock.filter
      (fun r => r.maintenanceId == mid && r.stockId == sid)).map
    (fun r => r.quantity)).sum

/-- Well-formedness of a database state: stock ids and maintenance ids are
primary keys (no duplicates), and every `maintenance_stock` row references
an existing maintenance record. -/
def WF (db : DB) : Prop :=
  (db.stock.map (fun s => s.id)).Nodup ∧
  (db.maintenance.map (fun m => m.id)).Nodup ∧
  ∀ r ∈ db.maintenanceStock, ∃ m ∈ db.maintenance, m.id = r.maintenanceId

/-- A maintenance mutation as the claims quantify over them: the two
operation kinds that reconcile the stock ledger correctly (see the theorems
for `C2`: update is the one that does not). -/
inductive LedgerOp where
  | create (newId : String) (req : Maintenance)
  | del (id : String)

/-- Runs one `LedgerOp`; `none` when the operation fails (in which case the
database is unchanged, so a failed step simply aborts the sequence). -/
def applyOp : LedgerOp → DB → Option DB
  | .create newId req, db =>
    match createMaintenance newId req db with
    | (.ok _, db') => some db'
    | (.error _, _) => none
  | .del id, db => some (deleteMaintenance id db).1

/-- Runs a sequence of `LedgerOp`s, all of which must succeed. -/
def applyOps : List LedgerOp → DB → Option DB
  | [], db => some db
  | op :: rest, db =>
    match applyOp op db with
    | none => none
    | some db1 => applyOps rest db1

/-! Basic lemmas about the observables. -/

lemma reqTotal_nil (sid : String) : reqTotal sid [] = 0 := rfl

lemma reqTotal_cons (sid : String) (e : UsedStockItem)
    (rest : List UsedStockItem) :
    reqTotal sid (e :: rest) =
      (if e.stockId == sid then e.quantity else 0) + reqTotal sid rest := by
  simp only [reqTotal, List.filter_cons]
  split <;> simp

lemma onHand_nil (sid : String) : onHand sid [] = 0 := rfl

lemma onHand_cons (sid : String) (s : StockItem) (tl : List StockItem) :
    onHand sid (s :: tl) =
      (if s.id == sid then s.quantity else 0) + onHand sid tl := by
  simp only [onHand, List.filter_cons]
  split <;> simp

lemma updStockQty_map_id (d : Int) (t : String) (l : List StockItem) :
    (updStockQty d t l).map (fun s => s.id) = l.map (fun s => s.id) := by
  simp only [updStockQty, List.map_map]
  apply List.map_congr_left
  intro s _
  by_cases h : (s.id == t) = true <;> simp [Function.comp, h]

lemma onHand_not_mem {sid : String} {l : List StockItem}
    (h : sid ∉ l.map (fun s => s.id)) : onHand sid l = 0 := by
  induction l with
  | nil => rfl
  | cons s tl ih =>
    simp only [List.map_cons, List.mem_cons, not_or] at h
    have hs : (s.id == sid) = false :=
      beq_eq_false_iff_ne.mpr (fun e => h.1 e.symm)
    rw [onHand_cons, hs, ih h.2]
    simp

lemma onHand_updStockQty_ne {sid t : String} (d : Int) (l : List StockItem)
    (h : t ≠ sid) : onHand sid (updStockQty d t l) = onHand sid l := by
  induction l with
  | nil => rfl
  | cons s tl ih =>
    simp only [updStockQty, List.map_cons] at *
    by_cases h1 : (s.id == t) = true
    · have h2 : (s.id == sid) = false := by
        have : s.id = t := by simpa using h1
        exact beq_eq_false_iff_ne.mpr (this ▸ h)
      rw [h1]
      simp only [if_true]
      rw [onHand_cons, onHand_cons, h2]
      simpa using ih
    · have hcond : (if s.id == t then { s with quantity := s.quantity + d }
          else s) = s := if_neg (by simpa using h1)
      rw [hcond, onHand_cons, onHand_cons]
      simpa using ih

lemma onHand_updStockQty_self {sid : String} (d : Int) {l : List StockItem}
    (hnd : (l.map (fun s => s.id)).Nodup)
    (hmem : sid ∈ l.map (fun s => s.id)) :
    onHand sid (updStockQty d sid l) = onHand sid l + d := by
  induction l with
  | nil => simp at hmem
  | cons s tl ih =>
    simp only [List.map_cons, List.nodup_cons] at hnd
    simp only [List.map_cons, List.mem_cons] at hmem
    simp only [updStockQty, List.map_cons]
    rcases hmem with hmem | hmem
    · have hs : (s.id == sid) = true := by simp [hmem]
      rw [hs]
      simp only [if_true]
      rw [onHand_cons, onHand_cons, hs]
      have htl : sid ∉ tl.map (fun s => s.id) := hmem ▸ hnd.1
      have h1 : onHand sid tl = 0 := onHand_not_mem htl
      have h2 : onHand sid (updStockQty d sid tl) = 0 := by
        apply onHand_not_mem
        rw [updStockQty_map_id]
        exact htl
      simp only [updStockQty] at h2
      rw [h2, h1]
      simp
    · have hne : s.id ≠ sid := fun e => hnd.1 (e ▸ hmem)
      have hs : (s.id == sid) = false := beq_eq_false_iff_ne.mpr hne
      have hcond : (if s.id == sid then { s with quantity := s.quantity + d }
          else s) = s := if_neg (by simp [hs])
      rw [hcond, onHand_cons, onHand_cons, hs]
      have := ih hnd.2 hmem
      simp only [updStockQty] at this
      rw [this]
      ring

/-! Shape and success lemmas for the two per-entry loops. -/

lemma createStockLoop_ok_facts {mid : String} :
    ∀ {items : List UsedStockItem} {db db2 : DB},
    createStockLoop mid items db = .ok db2 →
      db2.maintenance = db.maintenance ∧
      db2.maintenanceStock = db.maintenanceStock ++
        items.map (fun e => (⟨mid, e.stockId, e.quantity⟩ : MSRow)) ∧
      db2.stock.map (fun s => s.id) = db.stock.map (fun s => s.id) ∧
      db2.operators = db.operators ∧ db2.machines = db.machines ∧
      db2.sensors = db.sensors := by
  intro items
  induction items with
  | nil =>
    intro db db2 h
    simp only [createStockLoop] at h
    cases h
    simp
  | cons item rest ih =>
    intro db db2 h
    simp only [createStockLoop] at h
    split at h
    · cases h
    · obtain ⟨h1, h2, h3, h4, h5, h6⟩ := ih h
      refine ⟨h1, ?_, ?_, h4, h5, h6⟩
      · rw [h2]
        simp [List.append_assoc]
      · rw [h3]
        exact updStockQty_map_id _ _ _

lemma createStockLoop_onHand {mid sid : String} :
    ∀ {items : List UsedStockItem} {db db2 : DB},
    createStockLoop mid items db = .ok db2 →
    (db.stock.map (fun s => s.id)).Nodup →
    sid ∈ db.stock.map (fun s => s.id) →
      onHand sid db2.stock = onHand sid db.stock - reqTotal sid items := by
  intro items
  induction items with
  | nil =>
    intro db db2 h _ _
    simp only [createStockLoop] at h
    cases h
    simp [reqTotal_nil]
  | cons item rest ih =>
    intro db db2 h hnd hmem
    simp only [createStockLoop] at h
    split at h
    · cases h
    · have hnd' : ((updStockQty (-item.quantity) item.stockId db.stock).map
          (fun s => s.id)).Nodup := by rw [updStockQty_map_id]; exact hnd
      have hmem' : sid ∈ (updStockQty (-item.quantity) item.stockId
          db.stock).map (fun s => s.id) := by rw [updStockQty_map_id]; exact hmem
      have := ih h hnd' hmem'
      rw [this, reqTotal_cons]
      by_cases hts : item.stockId = sid
      · subst hts
        rw [onHand_updStockQty_self (-item.quantity) hnd hmem]
        simp
        ring
      · rw [onHand_updStockQty_ne _ _ hts]
        have : (item.stockId == sid) = false := beq_eq_false_iff_ne.mpr hts
        rw [this]
        simp

lemma createStockLoop_isOk {mid : String} :
    ∀ {items : List UsedStockItem} {db : DB},
    (items.map (fun e => e.stockId)).Nodup →
    (∀ r ∈ db.maintenanceStock, r.maintenanceId = mid →
      r.stockId ∉ items.map (fun e => e.stockId)) →
    ∃ db2, createStockLoop mid items db = .ok db2 := by
  intro items
  induction items with
  | nil => intro db _ _; exact ⟨db, rfl⟩
  | cons item rest ih =>
    intro db hnd hdis
    simp only [createStockLoop]
    have hcond : (db.maintenanceStock.any (fun r => r.maintenanceId == mid &&
        r.stockId == item.stockId)) = false := by
      rw [Bool.eq_false_iff]
      intro hany
      obtain ⟨r, hr, hp⟩ := List.any_eq_true.mp hany
      have hmid : r.maintenanceId = mid := by
        have := (Bool.and_eq_true _ _).mp hp
        simpa using this.1
      have hsid : r.stockId = item.stockId := by
        have := (Bool.and_eq_true _ _).mp hp
        simpa using this.2
      exact hdis r hr hmid (by simp [hsid])
    rw [hcond]
    simp only [Bool.false_eq_true, if_false]
    simp only [List.map_cons, List.nodup_cons] at hnd
    apply ih hnd.2
    intro r hr hmid
    simp only [List.mem_append, List.mem_singleton] at hr
    rcases hr with hr | hr
    · intro hmem
      exact hdis r hr hmid (by simp [List.map_cons]; right; simpa using hmem)
    · subst hr
      simpa using hnd.1

lemma updateStockLoop_ok_shape {mid : String} :
    ∀ {items : List UsedStockItem} {db db3 : DB},
    updateStockLoop mid items db = .ok db3 →
      db3 = { db with maintenanceStock := (db.maintenanceStock ++
        items.map (fun e => (⟨mid, e.stockId, e.quantity⟩ : MSRow))) } := by
  intro items
  induction items with
  | nil =>
    intro db db3 h
    simp only [updateStockLoop] at h
    cases h
    simp
  | cons item rest ih =>
    intro db db3 h
    simp only [updateStockLoop] at h
    split at h
    · cases h
    · have := ih h
      rw [this]
      simp [List.append_assoc]

lemma updateStockLoop_isOk {mid : String} :
    ∀ {items : List UsedStockItem} {db : DB},
    (items.map (fun e => e.stockId)).Nodup →
    (∀ r ∈ db.maintenanceStock, r.maintenanceId = mid →
      r.stockId ∉ items.map (fun e => e.stockId)) →
    ∃ db3, updateStockLoop mid items db = .ok db3 := by
  intro items
  induction items with
  | nil => intro db _ _; exact ⟨db, rfl⟩
  | cons item rest ih =>
    intro db hnd hdis
    simp only [updateStockLoop]
    have hcond : (db.maintenanceStock.any (fun r => r.maintenanceId == mid &&
        r.stockId == item.stockId)) = false := by
      rw [Bool.eq_false_iff]
      intro hany
      obtain ⟨r, hr, hp⟩ := List.any_eq_true.mp hany
      have hmid : r.maintenanceId = mid := by
        have := (Bool.and_eq_true _ _).mp hp
        simpa using this.1
      have hsid : r.stockId = item.stockId := by
        have := (Bool.and_eq_true _ _).mp hp
        simpa using this.2
      exact hdis r hr hmid (by simp [hsid])
    rw [hcond]
    simp only [Bool.false_eq_true, if_false]
    simp only [List.map_cons, List.nodup_cons] at hnd
    apply ih hnd.2
    intro r hr hmid
    simp only [List.mem_append, List.mem_singleton] at hr
    rcases hr with hr | hr
    · intro hmem
      exact hdis r hr hmid (by simp [List.map_cons]; right; simpa using hmem)
    · subst hr
      simpa using hnd.1

/-! Lemmas about reserved quantities and anchoring. -/

lemma resExL_nil (maint : List MaintRow) (sid : String) :
    resExL maint [] sid = 0 := rfl

lemma resExL_cons (maint : List MaintRow) (r : MSRow) (tl : List MSRow)
    (sid : String) :
    resExL maint (r :: tl) sid =
      (if r.stockId == sid && anchored maint r then r.quantity else 0) +
        resExL maint tl sid := by
  simp only [resExL, List.filter_cons]
  split <;> simp

lemma resExL_append (maint : List MaintRow) (a b : List MSRow)
    (sid : String) :
    resExL maint (a ++ b) sid = resExL maint a sid + resExL maint b sid := by
  simp [resExL, List.filter_append]

lemma anchored_extend {nid : String} {r : MSRow} (hne : r.maintenanceId ≠ nid)
    {mt : List MaintRow} {nr : MaintRow} (h : nr.id = nid) :
    anchored (mt ++ [nr]) r = anchored mt r := by
  simp only [anchored, List.any_append, List.any_cons, List.any_nil]
  have : (nr.id == r.maintenanceId) = false :=
    beq_eq_false_iff_ne.mpr (by rw [h]; exact fun e => hne e.symm)
  rw [this]
  simp

lemma resExL_extend_fresh {nid : String} {ms : List MSRow}
    (hfresh : ∀ r ∈ ms, r.maintenanceId ≠ nid) {mt : List MaintRow}
    {nr : MaintRow} (hnr : nr.id = nid) (sid : String) :
    resExL (mt ++ [nr]) ms sid = resExL mt ms sid := by
  have heq : ms.filter (fun r => r.stockId == sid && anchored (mt ++ [nr]) r)
      = ms.filter (fun r => r.stockId == sid && anchored mt r) :=
    List.filter_congr (fun r hr => by
      rw [anchored_extend (hfresh r hr) hnr])
  simp only [resExL, heq]

lemma resExL_newRows {mid : String} {mt : List MaintRow}
    (hanch : mt.any (fun m => m.id == mid) = true)
    (items : List UsedStockItem) (sid : String) :
    resExL mt (items.map (fun e => (⟨mid, e.stockId, e.quantity⟩ : MSRow)))
      sid = reqTotal sid items := by
  rw [resExL, List.filter_map]
  have heq : items.filter ((fun r => r.stockId == sid && anchored mt r) ∘
        (fun e => (⟨mid, e.stockId, e.quantity⟩ : MSRow)))
      = items.filter (fun e => e.stockId == sid) :=
    List.filter_congr (fun e _ => by
      simp only [Function.comp]
      have : anchored mt ⟨mid, e.stockId, e.quantity⟩ = true := hanch
      rw [this, Bool.and_true])
  rw [heq, List.map_map]
  rfl

lemma anchored_filter_ne {mid : String} {r : MSRow}
    (h : (r.maintenanceId == mid) = false) (mt : List MaintRow) :
    anchored (mt.filter (fun m => !(m.id == mid))) r = anchored mt r := by
  have hne : r.maintenanceId ≠ mid := by simpa using h
  simp only [anchored, List.any_filter]
  rw [Bool.eq_iff_iff]
  simp only [List.any_eq_true]
  constructor
  · rintro ⟨m, hm, hp⟩
    exact ⟨m, hm, ((Bool.and_eq_true _ _).mp hp).2⟩
  · rintro ⟨m, hm, hp⟩
    refine ⟨m, hm, ?_⟩
    have hm2 : m.id = r.maintenanceId := by simpa using hp
    have hf : (m.id == mid) = false :=
      beq_eq_false_iff_ne.mpr (by rw [hm2]; exact hne)
    rw [hf, hp]
    rfl

lemma resExL_delete {mid : String} {mt : List MaintRow} :
    ∀ {ms : List MSRow}, (∀ r ∈ ms, anchored mt r = true) →
    ∀ (sid : String),
    resExL (mt.filter (fun m => !(m.id == mid)))
        (ms.filter (fun r => !(r.maintenanceId == mid))) sid
      = resExL mt ms sid -
        ((ms.filter (fun r => r.maintenanceId == mid && r.stockId == sid)).map
          (fun r => r.quantity)).sum := by
  intro ms
  induction ms with
  | nil => intro _ sid; simp [resExL]
  | cons r tl ih =>
    intro hanch sid
    have hr := hanch r (List.mem_cons_self _ _)
    have htl : ∀ x ∈ tl, anchored mt x = true :=
      fun x hx => hanch x (List.mem_cons_of_mem _ hx)
    by_cases hm : (r.maintenanceId == mid) = true
    · have h1 : ((r :: tl).filter (fun r => !(r.maintenanceId == mid)))
          = tl.filter (fun r => !(r.maintenanceId == mid)) := by
        simp [List.filter_cons, hm]
      have h2 : ((r :: tl).filter
            (fun r => r.maintenanceId == mid && r.stockId == sid))
          = (if r.stockId == sid then [r] else []) ++
            tl.filter (fun r => r.maintenanceId == mid && r.stockId == sid) := by
        simp only [List.filter_cons, hm, Bool.true_and]
        split <;> simp
      rw [h1, h2, ih htl sid, resExL_cons]
      rw [hr, Bool.and_true]
      by_cases hs : (r.stockId == sid) = true
      · rw [hs]
        simp only [if_true, List.map_append, List.sum_append]
        simp
      · have hs2 : (r.stockId == sid) = false := by simpa using hs
        rw [hs2]
        simp
    · have hm2 : (r.maintenanceId == mid) = false := by simpa using hm
      have h1 : ((r :: tl).filter (fun r => !(r.maintenanceId == mid)))
          = r :: tl.filter (fun r => !(r.maintenanceId == mid)) := by
        simp [List.filter_cons, hm2]
      have h2 : ((r :: tl).filter
            (fun r => r.maintenanceId == mid && r.stockId == sid))
          = tl.filter (fun r => r.maintenanceId == mid && r.stockId == sid) := by
        simp [List.filter_cons, hm2]
      rw [h1, h2, resExL_cons, resExL_cons, ih htl sid]
      rw [anchored_filter_ne hm2]
      omega

/-! Lemmas about the restore loop of `deleteMaintenance`. -/

lemma foldl_updStock_map_id :
    ∀ (pairs : List (String × Int)) (l : List StockItem),
    ((pairs.foldl (fun acc p => updStockQty p.2 p.1 acc) l).map
      (fun s => s.id)) = l.map (fun s => s.id) := by
  intro pairs
  induction pairs with
  | nil => intro l; rfl
  | cons p ps ih =>
    intro l
    rw [List.foldl_cons, ih, updStockQty_map_id]

lemma onHand_foldl_add {sid : String} :
    ∀ (pairs : List (String × Int)) (l : List StockItem),
    (l.map (fun s => s.id)).Nodup → sid ∈ l.map (fun s => s.id) →
    onHand sid (pairs.foldl (fun acc p => updStockQty p.2 p.1 acc) l)
      = onHand sid l +
        ((pairs.filter (fun p => p.1 == sid)).map (fun p => p.2)).sum := by
  intro pairs
  induction pairs with
  | nil => intro l _ _; simp
  | cons p ps ih =>
    intro l hnd hmem
    rw [List.foldl_cons]
    have hnd' : ((updStockQty p.2 p.1 l).map (fun s => s.id)).Nodup := by
      rw [updStockQty_map_id]; exact hnd
    have hmem' : sid ∈ (updStockQty p.2 p.1 l).map (fun s => s.id) := by
      rw [updStockQty_map_id]; exact hmem
    rw [ih _ hnd' hmem', List.filter_cons]
    by_cases hp : p.1 = sid
    · subst hp
      rw [onHand_updStockQty_self p.2 hnd hmem]
      simp
      ring
    · rw [onHand_updStockQty_ne _ _ hp]
      have : (p.1 == sid) = false := beq_eq_false_iff_ne.mpr hp
      rw [this]
      simp

lemma deleteMaintenance_snd (mid : String) (db : DB) :
    (deleteMaintenance mid db).2 = 204 := rfl

lemma deleteMaintenance_maintenance (mid : String) (db : DB) :
    (deleteMaintenance mid db).1.maintenance
      = db.maintenance.filter (fun m => !(m.id == mid)) := rfl

lemma deleteMaintenance_ms (mid : String) (db : DB) :
    (deleteMaintenance mid db).1.maintenanceStock
      = db.maintenanceStock.filter (fun r => !(r.maintenanceId == mid)) := rfl

lemma deleteMaintenance_stock (mid : String) (db : DB) :
    (deleteMaintenance mid db).1.stock
      = ((db.maintenanceStock.filter
          (fun r => r.maintenanceId == mid)).map
          (fun r => (r.stockId, r.quantity))).foldl
          (fun acc p => updStockQty p.2 p.1 acc) db.stock := rfl

lemma deleteMaintenance_onHand {mid sid : String} {db : DB}
    (hnd : (db.stock.map (fun s => s.id)).Nodup)
    (hmem : sid ∈ db.stock.map (fun s => s.id)) :
    onHand sid (deleteMaintenance mid db).1.stock
      = onHand sid db.stock + reservedBy mid sid db := by
  rw [deleteMaintenance_stock, onHand_foldl_add _ _ hnd hmem]
  congr 1
  rw [List.filter_map, List.map_map]
  have hpred : (db.maintenanceStock.filter (fun r => r.maintenanceId == mid)).filter
        ((fun p => p.1 == sid) ∘ (fun r => (r.stockId, r.quantity)))
      = (db.maintenanceStock.filter (fun r => r.maintenanceId == mid)).filter
        (fun r => r.stockId == sid) := by
    apply List.filter_congr
    intro r _
    rfl
  rw [hpred, List.filter_filter]
  have hcomm : db.maintenanceStock.filter
        (fun r => r.stockId == sid && r.maintenanceId == mid)
      = db.maintenanceStock.filter
        (fun r => r.maintenanceId == mid && r.stockId == sid) :=
    List.filter_congr (fun r _ => Bool.and_comm _ _)
  rw [hcomm]
  rfl

lemma getMaintenance_delete (mid : String) (db : DB) :
    getMaintenance mid (deleteMaintenance mid db).1 = none := by
  rw [getMaintenance, deleteMaintenance_maintenance]
  have : (db.maintenance.filter (fun m => !(m.id == mid))).find?
      (fun m => m.id == mid) = none := by
    rw [List.find?_eq_none]
    intro m hm
    have := (List.mem_filter.mp hm).2
    simp at this
    simp [this]
  rw [this]

/-! Master lemmas for `createMaintenance` and `updateMaintenance`. -/

lemma createMaintenance_ok_split {newId : String} {req : Maintenance}
    {db db' : DB} {resp : Maintenance}
    (h : createMaintenance newId req db = (.ok resp, db')) :
    (db.maintenance.any (fun m => m.id == newId)) = false ∧
    resp = { req with id := newId } ∧
    createStockLoop newId req.usedStock
      { db with maintenance := (db.maintenance ++
          [⟨newId, req.machineId, req.date, req.description, "scheduled"⟩]) }
      = .ok db' := by
  rw [createMaintenance] at h
  split at h
  · simp at h
  · rename_i hcond
    split at h
    · simp at h
    · rename_i db2 heq
      obtain ⟨h1, h2⟩ := Prod.mk.injEq .. ▸ h
      refine ⟨by simpa using hcond, ?_, ?_⟩
      · cases h1; rfl
      · rw [heq]; cases h2; rfl

lemma createMaintenance_ok_facts {newId : String} {req : Maintenance}
    {db db' : DB} {resp : Maintenance}
    (h : createMaintenance newId req db = (.ok resp, db')) :
    (db.maintenance.any (fun m => m.id == newId)) = false ∧
    resp = { req with id := newId } ∧
    db'.maintenance = db.maintenance ++
      [⟨newId, req.machineId, req.date, req.description, "scheduled"⟩] ∧
    db'.maintenanceStock = db.maintenanceStock ++
      req.usedStock.map (fun e => (⟨newId, e.stockId, e.quantity⟩ : MSRow)) ∧
    db'.stock.map (fun s => s.id) = db.stock.map (fun s => s.id) ∧
    db'.operators = db.operators ∧ db'.machines = db.machines ∧
    db'.sensors = db.sensors := by
  obtain ⟨h1, h2, h3⟩ := createMaintenance_ok_split h
  obtain ⟨f1, f2, f3, f4, f5, f6⟩ := createStockLoop_ok_facts h3
  exact ⟨h1, h2, f1, f2, f3, f4, f5, f6⟩

lemma createMaintenance_onHand {newId : String} {req : Maintenance}
    {db db' : DB} {resp : Maintenance} {sid : String}
    (h : createMaintenance newId req db = (.ok resp, db'))
    (hnd : (db.stock.map (fun s => s.id)).Nodup)
    (hmem : sid ∈ db.stock.map (fun s => s.id)) :
    onHand sid db'.stock = onHand sid db.stock - reqTotal sid req.usedStock := by
  obtain ⟨-, -, h3⟩ := createMaintenance_ok_split h
  have h4 := createStockLoop_onHand h3 hnd hmem
  exact h4

lemma createMaintenance_err {newId : String} {req : Maintenance} {db : DB}
    (h : (createMaintenance newId req db).1.isOk = false) :
    (createMaintenance newId req db).2 = db := by
  by_cases hc : (db.maintenance.any (fun m => m.id == newId)) = true
  · rw [createMaintenance, if_pos hc]
  · rcases hloop : createStockLoop newId req.usedStock
        { db with maintenance := (db.maintenance ++
            [⟨newId, req.machineId, req.date, req.description,
              "scheduled"⟩]) } with e | db2
    · rw [createMaintenance, if_neg hc, hloop]
    · exfalso
      rw [createMaintenance, if_neg hc, hloop] at h
      simp [Except.isOk, Except.toBool] at h

lemma createMaintenance_isOk {newId : String} {req : Maintenance} {db : DB}
    (hfresh : (db.maintenance.any (fun m => m.id == newId)) = false)
    (hnd : (req.usedStock.map (fun e => e.stockId)).Nodup)
    (horph : ∀ r ∈ db.maintenanceStock, r.maintenanceId ≠ newId) :
    (createMaintenance newId req db).1.isOk = true := by
  rw [createMaintenance, hfresh]
  simp only [Bool.false_eq_true, if_false]
  obtain ⟨db2, hdb2⟩ :=
    @createStockLoop_isOk newId req.usedStock
      { db with maintenance := (db.maintenance ++
          [⟨newId, req.machineId, req.date, req.description, "scheduled"⟩]) }
      hnd (fun r hr hmid => absurd hmid (horph r hr))
  rw [hdb2]
  rfl

lemma updateMaintenance_err {id : String} {req : Maintenance} {db : DB}
    (h : (updateMaintenance id req db).1.isOk = false) :
    (updateMaintenance id req db).2 = db := by
  rcases hloop : updateStockLoop id req.usedStock
      { db with
        maintenance := db.maintenance.map (fun (m : MaintRow) =>
          if m.id == id then
            { m with machineId := req.machineId, date := req.date,
                     description := req.description, status := req.status }
          else m),
        maintenanceStock :=
          db.maintenanceStock.filter (fun r => !(r.maintenanceId == id)) }
      with e | db3
  · rw [updateMaintenance, hloop]
  · exfalso
    rw [updateMaintenance, hloop] at h
    simp [Except.isOk, Except.toBool] at h

lemma updateMaintenance_ok_facts {id : String} {req : Maintenance}
    {db db' : DB} {resp : Maintenance}
    (h : updateMaintenance id req db = (.ok resp, db')) :
    resp = req ∧
    db'.stock = db.stock ∧
    db'.operators = db.operators ∧ db'.machines = db.machines ∧
    db'.sensors = db.sensors ∧
    db'.maintenance = db.maintenance.map (fun (m : MaintRow) =>
      if m.id == id then
        { m with machineId := req.machineId, date := req.date,
                 description := req.description, status := req.status }
      else m) ∧
    db'.maintenanceStock =
      db.maintenanceStock.filter (fun r => !(r.maintenanceId == id)) ++
      req.usedStock.map (fun e => (⟨id, e.stockId, e.quantity⟩ : MSRow)) := by
  rw [updateMaintenance] at h
  split at h
  · simp at h
  · rename_i db3 heq
    obtain ⟨h1, h2⟩ := Prod.mk.injEq .. ▸ h
    have hshape := updateStockLoop_ok_shape heq
    cases h2
    refine ⟨by cases h1; rfl, ?_⟩
    rw [hshape]
    exact ⟨rfl, rfl, rfl, rfl, rfl, rfl⟩

/-! Well-formedness preservation and the conservation argument. -/

lemma any_eq_false_forall {α : Type} {l : List α} {p : α → Bool}
    (h : l.any p = false) : ∀ x ∈ l, p x = false := by
  intro x hx
  rw [Bool.eq_false_iff]
  intro hp
  have : l.any p = true := List.any_eq_true.mpr ⟨x, hx, hp⟩
  rw [h] at this
  cases this

lemma WF_create {newId : String} {req : Maintenance} {db db' : DB}
    {resp : Maintenance} (hwf : WF db)
    (h : createMaintenance newId req db = (.ok resp, db')) : WF db' := by
  obtain ⟨hfresh, -, hmaint, hms, hids, -, -, -⟩ := createMaintenance_ok_facts h
  obtain ⟨hs, hm, ha⟩ := hwf
  have hfr : ∀ m ∈ db.maintenance, m.id ≠ newId := by
    intro m hmm e
    have := any_eq_false_forall hfresh m hmm
    rw [e] at this
    simp at this
  refine ⟨?_, ?_, ?_⟩
  · rw [hids]; exact hs
  · rw [hmaint, List.map_append, List.nodup_append]
    refine ⟨hm, by simp, ?_⟩
    intro a hamem hasing
    simp only [List.map_cons, List.map_nil, List.mem_singleton] at hasing
    obtain ⟨m, hmm, rfl⟩ := List.mem_map.mp hamem
    exact hfr m hmm hasing
  · intro r hr
    rw [hms] at hr
    rw [hmaint]
    rcases List.mem_append.mp hr with hr | hr
    · obtain ⟨m, hm1, hm2⟩ := ha r hr
      exact ⟨m, List.mem_append_left _ hm1, hm2⟩
    · obtain ⟨e, he, rfl⟩ := List.mem_map.mp hr
      exact ⟨⟨newId, req.machineId, req.date, req.description, "scheduled"⟩,
        List.mem_append_right _ (by simp), rfl⟩

lemma WF_delete {mid : String} {db : DB} (hwf : WF db) :
    WF (deleteMaintenance mid db).1 := by
  obtain ⟨hs, hm, ha⟩ := hwf
  refine ⟨?_, ?_, ?_⟩
  · rw [deleteMaintenance_stock, foldl_updStock_map_id]
    exact hs
  · rw [deleteMaintenance_maintenance]
    exact List.Nodup.sublist (List.Sublist.map _ (List.filter_sublist _)) hm
  · intro r hr
    rw [deleteMaintenance_ms] at hr
    rw [deleteMaintenance_maintenance]
    obtain ⟨hrm, hrp⟩ := List.mem_filter.mp hr
    obtain ⟨m, hm1, hm2⟩ := ha r hrm
    have hrmid : r.maintenanceId ≠ mid := by simpa using hrp
    refine ⟨m, List.mem_filter.mpr ⟨hm1, ?_⟩, hm2⟩
    simp only [Bool.not_eq_eq_eq_not, Bool.not_true]
    exact beq_eq_false_iff_ne.mpr (by rw [hm2]; exact hrmid)

lemma ledgerSum_create {newId : String} {req : Maintenance} {db db' : DB}
    {resp : Maintenance} {sid : String} (hwf : WF db)
    (h : createMaintenance newId req db = (.ok resp, db'))
    (hmem : sid ∈ db.stock.map (fun s => s.id)) :
    ledgerSum sid db' = ledgerSum sid db := by
  obtain ⟨hfresh, -, hmaint, hms, -, -, -, -⟩ := createMaintenance_ok_facts h
  obtain ⟨hs, hm, ha⟩ := hwf
  have honh : onHand sid db'.stock
      = onHand sid db.stock - reqTotal sid req.usedStock :=
    createMaintenance_onHand h hs hmem
  have hfreshrows : ∀ r ∈ db.maintenanceStock, r.maintenanceId ≠ newId := by
    intro r hr e
    obtain ⟨m, hm1, hm2⟩ := ha r hr
    have := any_eq_false_forall hfresh m hm1
    rw [hm2, e] at this
    simp at this
  have hres : resEx sid db' = resEx sid db + reqTotal sid req.usedStock := by
    rw [resEx, resEx, hms, hmaint, resExL_append]
    rw [resExL_extend_fresh hfreshrows rfl]
    rw [resExL_newRows (by simp)]
  rw [ledgerSum, ledgerSum, honh, hres]
  omega

lemma ledgerSum_delete {mid sid : String} {db : DB} (hwf : WF db)
    (hmem : sid ∈ db.stock.map (fun s => s.id)) :
    ledgerSum sid (deleteMaintenance mid db).1 = ledgerSum sid db := by
  obtain ⟨hs, hm, ha⟩ := hwf
  have honh : onHand sid (deleteMaintenance mid db).1.stock
      = onHand sid db.stock + reservedBy mid sid db :=
    deleteMaintenance_onHand hs hmem
  have hanch : ∀ r ∈ db.maintenanceStock, anchored db.maintenance r = true := by
    intro r hr
    obtain ⟨m, hm1, hm2⟩ := ha r hr
    exact List.any_eq_true.mpr ⟨m, hm1, by simp [hm2]⟩
  have hres : resEx sid (deleteMaintenance mid db).1
      = resEx sid db - reservedBy mid sid db := by
    rw [resEx, resEx, deleteMaintenance_maintenance, deleteMaintenance_ms]
    exact resExL_delete hanch sid
  rw [ledgerSum, ledgerSum, honh, hres]
  omega

lemma applyOp_facts {op : LedgerOp} {db db1 : DB} (hwf : WF db)
    (h : applyOp op db = some db1) :
    WF db1 ∧
    db1.stock.map (fun s => s.id) = db.stock.map (fun s => s.id) ∧
    ∀ sid ∈ db.stock.map (fun s => s.id),
      ledgerSum sid db1 = ledgerSum sid db := by
  cases op with
  | create newId req =>
    rw [applyOp] at h
    rcases hc : createMaintenance newId req db with ⟨res, db2⟩
    rw [hc] at h
    cases res with
    | error e => simp at h
    | ok m =>
      simp only [Option.some.injEq] at h
      subst h
      obtain ⟨-, -, -, -, hids, -, -, -⟩ := createMaintenance_ok_facts hc
      exact ⟨WF_create hwf hc, hids,
        fun sid hmem => ledgerSum_create hwf hc hmem⟩
  | del id =>
    rw [applyOp] at h
    simp only [Option.some.injEq] at h
    subst h
    refine ⟨WF_delete hwf, ?_, fun sid hmem => ledgerSum_delete hwf hmem⟩
    rw [deleteMaintenance_stock, foldl_updStock_map_id]

lemma applyOps_ledgerSum :
    ∀ (ops : List LedgerOp) (db db' : DB), WF db →
    applyOps ops db = some db' →
    ∀ sid ∈ db.stock.map (fun s => s.id),
      ledgerSum sid db' = ledgerSum sid db := by
  intro ops
  induction ops with
  | nil =>
    intro db db' _ h sid _
    rw [applyOps] at h
    simp only [Option.some.injEq] at h
    subst h
    rfl
  | cons op rest ih =>
    intro db db' hwf h sid hmem
    rw [applyOps] at h
    rcases ha : applyOp op db with _ | db1
    · rw [ha] at h; cases h
    · rw [ha] at h
      obtain ⟨hwf1, hids1, hsum1⟩ := applyOp_facts hwf ha
      have hrec := ih db1 db' hwf1 h sid (hids1 ▸ hmem)
      rw [hrec, hsum1 sid hmem]

/-! No-op lemmas for unknown ids, and the operator-deletion facts. -/

lemma deleteMaintenance_noop {id : String} {db : DB}
    (hno : ∀ m ∈ db.maintenance, m.id ≠ id)
    (horph : ∀ r ∈ db.maintenanceStock, r.maintenanceId ≠ id) :
    deleteMaintenance id db = (db, 204) := by
  have hused : db.maintenanceStock.filter (fun r => r.maintenanceId == id)
      = [] := by
    rw [List.filter_eq_nil_iff]
    intro r hr
    simpa using horph r hr
  have hms2 : db.maintenanceStock.filter (fun r => !(r.maintenanceId == id))
      = db.maintenanceStock := by
    rw [List.filter_eq_self]
    intro r hr
    simpa using horph r hr
  have hmt : db.maintenance.filter (fun m => !(m.id == id))
      = db.maintenance := by
    rw [List.filter_eq_self]
    intro m hm
    simpa using hno m hm
  show ((⟨db.operators, db.machines, db.sensors, _, _, _⟩ : DB), 204)
    = (db, 204)
  rw [hused, hms2, hmt]
  simp only [List.map_nil, List.foldl_nil]

lemma map_maint_id {id : String} {req : Maintenance} {l : List MaintRow}
    (hno : ∀ m ∈ l, m.id ≠ id) :
    l.map (fun (m : MaintRow) =>
      if m.id == id then
        { m with machineId := req.machineId, date := req.date,
                 description := req.description, status := req.status }
      else m) = l := by
  have h1 : ∀ m ∈ l, (fun (m : MaintRow) =>
      if m.id == id then
        { m with machineId := req.machineId, date := req.date,
                 description := req.description, status := req.status }
      else m) m = (fun m => m) m := by
    intro m hm
    have : (m.id == id) = false := beq_eq_false_iff_ne.mpr (hno m hm)
    simp [this]
  rw [List.map_congr_left h1, List.map_id']

lemma clearOperatorRef_id (id : String) (m : MachineRow) :
    (clearOperatorRef id m).id = m.id := by
  rw [clearOperatorRef]
  split <;> rfl

lemma clearOperatorRef_name_status (id : String) (m : MachineRow) :
    ((clearOperatorRef id m).name, (clearOperatorRef id m).status)
      = (m.name, m.status) := by
  rw [clearOperatorRef]
  split <;> rfl

lemma clearOperatorRef_opid (id : String) (m : MachineRow) :
    (clearOperatorRef id m).operatorId
      = (if m.operatorId == some id then none else m.operatorId) := by
  rw [clearOperatorRef]
  split <;> simp_all

/-! Concrete fixtures used by the counterexamples and witnesses.  They model
the spec's running scenario: `bolt` started with 10 on hand, maintenance
record `m1` reserved 7 of it, so 3 remain on hand. -/

def boltItem : StockItem := ⟨"bolt", "Bolt", 3, "pc", "A1"⟩

def nutItem : StockItem := ⟨"nut", "Nut", 5, "pc", "A2"⟩

def m1Row : MaintRow := ⟨"m1", "mach1", "2025-01-01", "maint", "scheduled"⟩

def dbSample : DB := ⟨[], [], [], [boltItem], [m1Row], [⟨"m1", "bolt", 7⟩]⟩

def dbTwo : DB :=
  ⟨[], [], [], [boltItem, nutItem], [m1Row],
   [⟨"m1", "bolt", 7⟩, ⟨"m1", "nut", 2⟩]⟩

def dbOps : DB :=
  ⟨[⟨"op1", "Ana"⟩, ⟨"op2", "Bruno"⟩],
   [⟨"mach1", "Press", "Ativo", some "op1"⟩,
    ⟨"mach2", "Lathe", "Parado", some "op2"⟩],
   [⟨"sen1", "Temp", "temperature", "mach1"⟩], [], [], []⟩

def reqBolt5 : Maintenance :=
  ⟨"", "mach1", "2025-01-02", "fix", "done", [⟨"bolt", 5⟩]⟩

def reqBolt2 : Maintenance :=
  ⟨"", "mach1", "2025-01-02", "fix", "done", [⟨"bolt", 2⟩]⟩

def reqBoltDup : Maintenance :=
  ⟨"", "mach1", "2025-01-02", "fix", "done", [⟨"bolt", 1⟩, ⟨"bolt", 2⟩]⟩

/-! Claim theorems. -/

/-- C1 counterexample: with only 3 `bolt` on hand, a create requesting 5 is
not rejected — it succeeds and drives the quantity to -2, so quantities do
go negative and the failed-deduction/unchanged-quantity behaviour the claim
describes does not exist in the code. -/
theorem c1_counterexample :
    (createMaintenance "m2" reqBolt5 dbSample).1.isOk = true ∧
    onHand "bolt" dbSample.stock = 3 ∧
    onHand "bolt" (createMaintenance "m2" reqBolt5 dbSample).2.stock = -2 := by
  decide

/-- C1 (amended): `createMaintenance` never rejects a deduction for
insufficient quantity.  Whenever the generated id is fresh and the request's
stock ids are distinct, the call succeeds and every stock item's quantity
drops by exactly the requested total — even when the result is negative. -/
theorem c1_no_negative_guard {newId : String} {req : Maintenance} {db : DB}
    (hfresh : (db.maintenance.any (fun m => m.id == newId)) = false)
    (horph : ∀ r ∈ db.maintenanceStock, r.maintenanceId ≠ newId)
    (hnd : (req.usedStock.map (fun e => e.stockId)).Nodup)
    (hstock : (db.stock.map (fun s => s.id)).Nodup) :
    (createMaintenance newId req db).1.isOk = true ∧
    ∀ sid ∈ db.stock.map (fun s => s.id),
      onHand sid (createMaintenance newId req db).2.stock
        = onHand sid db.stock - reqTotal sid req.usedStock := by
  have hok := createMaintenance_isOk hfresh hnd horph
  refine ⟨hok, ?_⟩
  intro sid hmem
  rcases hc : createMaintenance newId req db with ⟨res, db'⟩
  cases res with
  | error e =>
    rw [hc] at hok
    simp [Except.isOk, Except.toBool] at hok
  | ok m =>
    exact createMaintenance_onHand hc hstock hmem

/-- C1 witness: the amended theorem evaluated on the `bolt` scenario. -/
theorem c1_witness :
    (createMaintenance "m2" reqBolt5 dbSample).1.isOk = true ∧
    onHand "bolt" (createMaintenance "m2" reqBolt5 dbSample).2.stock
      = onHand "bolt" dbSample.stock - reqTotal "bolt" reqBolt5.usedStock := by
  have h := @c1_no_negative_guard "m2" reqBolt5 dbSample (by decide)
    (by decide) (by decide) (by decide)
  exact ⟨h.1, h.2 "bolt" (by decide)⟩

/-- C2 counterexample: `bolt` has ledger sum 10 (3 on hand + 7 reserved by
`m1`); the successful update of `m1` to reserve only 2 leaves the quantity
on hand untouched, so the sum drops to 5 — update breaks conservation. -/
theorem c2_counterexample :
    WF dbSample ∧
    (updateMaintenance "m1" reqBolt2 dbSample).1.isOk = true ∧
    ledgerSum "bolt" dbSample = 10 ∧
    ledgerSum "bolt" (updateMaintenance "m1" reqBolt2 dbSample).2 = 5 := by
  refine ⟨by unfold WF; decide, by decide, by decide, by decide⟩

/-- C2 (amended): for every sequence of successful `createMaintenance` and
`deleteMaintenance` operations on a well-formed database, each stock item's
quantity on hand plus the quantities reserved for it by existing maintenance
records is invariant.  `updateMaintenance` is excluded: it rewrites the
reservations without adjusting quantities (see the counterexample). -/
theorem c2_conservation_create_delete (ops : List LedgerOp) (db db' : DB)
    (hwf : WF db) (h : applyOps ops db = some db')
    (sid : String) (hmem : sid ∈ db.stock.map (fun s => s.id)) :
    ledgerSum sid db' = ledgerSum sid db :=
  applyOps_ledgerSum ops db db' hwf h sid hmem

/-- C2 witness: a create (which drives `bolt` negative) followed by a delete
still conserves the `bolt` ledger sum. -/
theorem c2_witness :
    ledgerSum "bolt"
      ((applyOps [.create "m2" reqBolt5, .del "m1"] dbSample).getD dbSample)
      = ledgerSum "bolt" dbSample :=
  c2_conservation_create_delete [.create "m2" reqBolt5, .del "m1"] dbSample
    ((applyOps [.create "m2" reqBolt5, .del "m1"] dbSample).getD dbSample)
    (by unfold WF; decide) (by decide) "bolt" (by decide)

/-- C3 counterexample: `m1` reserves 7 `bolt` and 3 are on hand; updating
`m1` to reserve 2 succeeds but leaves the quantity at 3, not at the
3 + 7 - 2 = 8 the claim requires — the restore/deduct steps do not exist. -/
theorem c3_counterexample :
    (updateMaintenance "m1" reqBolt2 dbSample).1.isOk = true ∧
    reservedBy "m1" "bolt" dbSample = 7 ∧
    onHand "bolt" dbSample.stock = 3 ∧
    onHand "bolt" (updateMaintenance "m1" reqBolt2 dbSample).2.stock = 3 ∧
    onHand "bolt" (updateMaintenance "m1" reqBolt2 dbSample).2.stock
      ≠ 3 + 7 - 2 := by
  decide

/-- C3 (amended): a successful `updateMaintenance` replaces the stored
used-stock rows of `id` with the new record's entries and leaves every
stock quantity (and every other record's rows) unchanged; no quantity is
restored or deducted. -/
theorem c3_update_replaces_rows_only {id : String} {req : Maintenance}
    {db db' : DB} {resp : Maintenance}
    (h : updateMaintenance id req db = (.ok resp, db')) :
    db'.stock = db.stock ∧
    db'.maintenanceStock.filter (fun r => r.maintenanceId == id)
      = req.usedStock.map (fun e => (⟨id, e.stockId, e.quantity⟩ : MSRow)) ∧
    db'.maintenanceStock.filter (fun r => !(r.maintenanceId == id))
      = db.maintenanceStock.filter (fun r => !(r.maintenanceId == id)) := by
  obtain ⟨-, hstock, -, -, -, -, hms⟩ := updateMaintenance_ok_facts h
  refine ⟨hstock, ?_, ?_⟩
  · rw [hms, List.filter_append, List.filter_filter]
    have h1 : db.maintenanceStock.filter
        (fun a => a.maintenanceId == id && !(a.maintenanceId == id)) = [] := by
      rw [List.filter_eq_nil_iff]
      intro r _
      simp
    have h2 : (req.usedStock.map
          (fun e => (⟨id, e.stockId, e.quantity⟩ : MSRow))).filter
        (fun r => r.maintenanceId == id)
        = req.usedStock.map (fun e => (⟨id, e.stockId, e.quantity⟩ : MSRow)) := by
      rw [List.filter_eq_self]
      intro r hr
      obtain ⟨e, he, rfl⟩ := List.mem_map.mp hr
      simp
    rw [h1, h2, List.nil_append]
  · rw [hms, List.filter_append, List.filter_filter]
    have h1 : db.maintenanceStock.filter
        (fun a => !(a.maintenanceId == id) && !(a.maintenanceId == id))
        = db.maintenanceStock.filter (fun a => !(a.maintenanceId == id)) :=
      List.filter_congr (fun a _ => Bool.and_self _)
    have h2 : (req.usedStock.map
          (fun e => (⟨id, e.stockId, e.quantity⟩ : MSRow))).filter
        (fun r => !(r.maintenanceId == id)) = [] := by
      rw [List.filter_eq_nil_iff]
      intro r hr
      obtain ⟨e, he, rfl⟩ := List.mem_map.mp hr
      simp
    rw [h1, h2, List.append_nil]

/-- C3 witness: the amended theorem evaluated on the `m1`/`bolt` update. -/
theorem c3_witness :
    (updateMaintenance "m1" reqBolt2 dbSample).2.stock = dbSample.stock ∧
    (updateMaintenance "m1" reqBolt2 dbSample).2.maintenanceStock.filter
        (fun r => r.maintenanceId == "m1")
      = reqBolt2.usedStock.map
          (fun e => (⟨"m1", e.stockId, e.quantity⟩ : MSRow)) ∧
    (updateMaintenance "m1" reqBolt2 dbSample).2.maintenanceStock.filter
        (fun r => !(r.maintenanceId == "m1"))
      = dbSample.maintenanceStock.filter
          (fun r => !(r.maintenanceId == "m1")) := by
  have h := @c3_update_replaces_rows_only "m1" reqBolt2 dbSample
    (updateMaintenance "m1" reqBolt2 dbSample).2 reqBolt2 (by rfl)
  exact ⟨h.1, h.2.1, h.2.2⟩

/-- C4: whenever `updateMaintenance` fails (its transaction rolls back),
every stock quantity and the record's stored used-stock rows are exactly
their pre-call values — in fact the whole database is unchanged. -/
theorem c4_update_failure_atomic (id : String) (req : Maintenance) (db : DB)
    (h : (updateMaintenance id req db).1.isOk = false) :
    (updateMaintenance id req db).2 = db ∧
    (updateMaintenance id req db).2.stock = db.stock ∧
    (updateMaintenance id req db).2.maintenanceStock.filter
        (fun r => r.maintenanceId == id)
      = db.maintenanceStock.filter (fun r => r.maintenanceId == id) := by
  have h2 := updateMaintenance_err h
  exact ⟨h2, by rw [h2], by rw [h2]⟩

/-- C4 witness: an update whose new record lists `bolt` twice fails (the
only failure the code has, a duplicate primary key) and changes nothing. -/
theorem c4_witness :
    (updateMaintenance "m1" reqBoltDup dbSample).1.isOk = false ∧
    (updateMaintenance "m1" reqBoltDup dbSample).2 = dbSample := by
  exact ⟨by decide,
    (c4_update_failure_atomic "m1" reqBoltDup dbSample (by decide)).1⟩

/-- C5 counterexample: a create requesting 5 `bolt` with only 3 on hand does
not fail with InsufficientStock — it succeeds and mutates the database, so
neither the validation nor the reported-shortage behaviour exists. -/
theorem c5_counterexample :
    onHand "bolt" dbSample.stock = 3 ∧
    (createMaintenance "m2" reqBolt5 dbSample).1.isOk = true ∧
    (createMaintenance "m2" reqBolt5 dbSample).2 ≠ dbSample := by
  decide

/-- C5 (amended): `createMaintenance` performs no stock validation at all:
given a fresh id, it succeeds whenever the request's stock ids are distinct
(regardless of quantities or of whether the stock items exist); its only
failure is a duplicate primary key, and any failure leaves the database
(stock quantities, records) exactly unchanged. -/
theorem c5_create_only_fails_on_duplicates {newId : String}
    {req : Maintenance} {db : DB}
    (hfresh : (db.maintenance.any (fun m => m.id == newId)) = false)
    (horph : ∀ r ∈ db.maintenanceStock, r.maintenanceId ≠ newId) :
    ((req.usedStock.map (fun e => e.stockId)).Nodup →
      (createMaintenance newId req db).1.isOk = true) ∧
    ((createMaintenance newId req db).1.isOk = false →
      (createMaintenance newId req db).2 = db) :=
  ⟨fun hnd => createMaintenance_isOk hfresh hnd horph,
   fun h => createMaintenance_err h⟩

/-- C5 witness: an over-large request succeeds; a duplicate-entry request
fails and leaves the database unchanged. -/
theorem c5_witness :
    (createMaintenance "m2" reqBolt5 dbSample).1.isOk = true ∧
    (createMaintenance "m3" reqBoltDup dbSample).1.isOk = false ∧
    (createMaintenance "m3" reqBoltDup dbSample).2 = dbSample := by
  refine ⟨(@c5_create_only_fails_on_duplicates "m2" reqBolt5 dbSample
      (by decide) (by decide)).1 (by decide), by decide,
    (@c5_create_only_fails_on_duplicates "m3" reqBoltDup dbSample
      (by decide) (by decide)).2 (by decide)⟩

/-- C6 counterexample: no record `zz` exists, yet the update returns success
(echoing the request) and the delete succeeds with 204 leaving the database
unchanged — neither answers 404. -/
theorem c6_counterexample :
    (dbSample.maintenance.any (fun m => m.id == "zz")) = false ∧
    (updateMaintenance "zz" reqBolt2 dbSample).1.isOk = true ∧
    deleteMaintenance "zz" dbSample = (dbSample, 204) := by
  decide

/-- C6 (amended): neither handler checks that the id exists.  For an id with
no maintenance record (and no stray rows), `deleteMaintenance` succeeds with
204 changing nothing, and `updateMaintenance` succeeds with 200 echoing the
request, changing no maintenance row and no stock quantity but inserting the
new used-stock rows under the unknown id. -/
theorem c6_unknown_id_no_404 {id : String} {req : Maintenance} {db : DB}
    (hno : ∀ m ∈ db.maintenance, m.id ≠ id)
    (horph : ∀ r ∈ db.maintenanceStock, r.maintenanceId ≠ id)
    (hnd : (req.usedStock.map (fun e => e.stockId)).Nodup) :
    deleteMaintenance id db = (db, 204) ∧
    (updateMaintenance id req db).1 = .ok req ∧
    (updateMaintenance id req db).2.maintenance = db.maintenance ∧
    (updateMaintenance id req db).2.stock = db.stock ∧
    (updateMaintenance id req db).2.maintenanceStock
      = db.maintenanceStock ++
        req.usedStock.map (fun e => (⟨id, e.stockId, e.quantity⟩ : MSRow)) := by
  have hdel := deleteMaintenance_noop hno horph
  obtain ⟨db3, hdb3⟩ := @updateStockLoop_isOk id req.usedStock
    { db with
      maintenance := db.maintenance.map (fun (m : MaintRow) =>
        if m.id == id then
          { m with machineId := req.machineId, date := req.date,
                   description := req.description, status := req.status }
        else m),
      maintenanceStock :=
        db.maintenanceStock.filter (fun r => !(r.maintenanceId == id)) }
    hnd (fun r hr hmid =>
      absurd hmid (horph r (List.mem_filter.mp hr).1))
  have hupd : updateMaintenance id req db = (.ok req, db3) := by
    rw [updateMaintenance, hdb3]
  obtain ⟨-, hstock, -, -, -, hmt, hms⟩ := updateMaintenance_ok_facts hupd
  have hmsid : db.maintenanceStock.filter (fun r => !(r.maintenanceId == id))
      = db.maintenanceStock := by
    rw [List.filter_eq_self]
    intro r hr
    simpa using horph r hr
  refine ⟨hdel, by rw [hupd], ?_, ?_, ?_⟩
  · rw [hupd]
    rw [show ((Except.ok req : Except SqlErr Maintenance), db3).2 = db3 from rfl]
    rw [hmt]
    exact map_maint_id hno
  · rw [hupd]
    exact hstock
  · rw [hupd]
    rw [show ((Except.ok req : Except SqlErr Maintenance), db3).2 = db3 from rfl]
    rw [hms, hmsid]

/-- C6 witness: the amended theorem on the unknown id `zz`. -/
theorem c6_witness :
    deleteMaintenance "zz" dbSample = (dbSample, 204) ∧
    (updateMaintenance "zz" reqBolt2 dbSample).1 = .ok reqBolt2 ∧
    (updateMaintenance "zz" reqBolt2 dbSample).2.maintenanceStock
      = dbSample.maintenanceStock ++
        reqBolt2.usedStock.map
          (fun e => (⟨"zz", e.stockId, e.quantity⟩ : MSRow)) := by
  have h := @c6_unknown_id_no_404 "zz" reqBolt2 dbSample (by decide)
    (by decide) (by decide)
  exact ⟨h.1, h.2.1, h.2.2.2.2⟩

/-- C7: deleting an existing maintenance record succeeds with 204, adds back
to every still-existing stock item exactly the quantity the record reserved
for it, removes the record's used-stock rows, and a subsequent GET answers
NotFound. -/
theorem c7_delete_restores_and_404 (id : String) (db : DB)
    (hex : ∃ m ∈ db.maintenance, m.id = id)
    (hnd : (db.stock.map (fun s => s.id)).Nodup) :
    (deleteMaintenance id db).2 = 204 ∧
    (∀ sid ∈ db.stock.map (fun s => s.id),
      onHand sid (deleteMaintenance id db).1.stock
        = onHand sid db.stock + reservedBy id sid db) ∧
    (deleteMaintenance id db).1.maintenanceStock.filter
      (fun r => r.maintenanceId == id) = [] ∧
    getMaintenance id (deleteMaintenance id db).1 = none := by
  obtain ⟨-, -, -⟩ := hex
  refine ⟨deleteMaintenance_snd id db,
    fun sid hmem => deleteMaintenance_onHand hnd hmem, ?_,
    getMaintenance_delete id db⟩
  rw [deleteMaintenance_ms, List.filter_filter, List.filter_eq_nil_iff]
  intro r _
  simp

/-- C7 witness: deleting `m1` restores `bolt` by its reserved 7 and the
record is gone. -/
theorem c7_witness :
    (deleteMaintenance "m1" dbSample).2 = 204 ∧
    onHand "bolt" (deleteMaintenance "m1" dbSample).1.stock
      = onHand "bolt" dbSample.stock + reservedBy "m1" "bolt" dbSample ∧
    getMaintenance "m1" (deleteMaintenance "m1" dbSample).1 = none := by
  have h := c7_delete_restores_and_404 "m1" dbSample (by decide) (by decide)
  exact ⟨h.1, h.2.1 "bolt" (by decide), h.2.2.2⟩

/-- C8: deleting a stock item that an existing maintenance record references
succeeds, and a later delete of that record still succeeds: the restore for
the missing item is a silent no-op (the item stays absent) while every
still-existing item is restored by its reserved amount. -/
theorem c8_orphaned_release_noop (sid mid : String) (db : DB)
    (hsid : sid ∈ db.stock.map (fun s => s.id))
    (hnd : (db.stock.map (fun s => s.id)).Nodup)
    (href : ∃ r ∈ db.maintenanceStock,
      r.maintenanceId = mid ∧ r.stockId = sid)
    (hrec : ∃ m ∈ db.maintenance, m.id = mid) :
    deleteStockItemH sid db = .ok (deleteStockItemRaw sid db) ∧
    (deleteMaintenance mid (deleteStockItemRaw sid db)).2 = 204 ∧
    (∀ t ∈ (deleteStockItemRaw sid db).stock.map (fun s => s.id),
      onHand t (deleteMaintenance mid (deleteStockItemRaw sid db)).1.stock
        = onHand t (deleteStockItemRaw sid db).stock
          + reservedBy mid t (deleteStockItemRaw sid db)) ∧
    sid ∉ (deleteMaintenance mid (deleteStockItemRaw sid db)).1.stock.map
      (fun s => s.id) := by
  obtain ⟨-, -, -⟩ := href
  obtain ⟨-, -, -⟩ := hrec
  have hany : (db.stock.any (fun s => s.id == sid)) = true := by
    obtain ⟨s, hs, hid⟩ := List.mem_map.mp hsid
    exact List.any_eq_true.mpr ⟨s, hs, by simp [hid]⟩
  have hnd1 : ((deleteStockItemRaw sid db).stock.map (fun s => s.id)).Nodup :=
    List.Nodup.sublist (List.Sublist.map _ (List.filter_sublist _)) hnd
  refine ⟨by rw [deleteStockItemH, if_pos hany], rfl,
    fun t ht => deleteMaintenance_onHand hnd1 ht, ?_⟩
  rw [deleteMaintenance_stock, foldl_updStock_map_id]
  intro hmem
  obtain ⟨s, hs, hid⟩ := List.mem_map.mp hmem
  have := (List.mem_filter.mp hs).2
  simp [hid] at this

/-- C8 witness: deleting `bolt` then deleting `m1` — the delete succeeds,
`nut` is restored by its reserved 2, and `bolt` stays absent. -/
theorem c8_witness :
    deleteStockItemH "bolt" dbTwo = .ok (deleteStockItemRaw "bolt" dbTwo) ∧
    (deleteMaintenance "m1" (deleteStockItemRaw "bolt" dbTwo)).2 = 204 ∧
    onHand "nut"
        (deleteMaintenance "m1" (deleteStockItemRaw "bolt" dbTwo)).1.stock
      = onHand "nut" (deleteStockItemRaw "bolt" dbTwo).stock
        + reservedBy "m1" "nut" (deleteStockItemRaw "bolt" dbTwo) ∧
    "bolt" ∉ (deleteMaintenance "m1"
        (deleteStockItemRaw "bolt" dbTwo)).1.stock.map (fun s => s.id) := by
  have h := c8_orphaned_release_noop "bolt" "m1" dbTwo (by decide) (by decide)
    (by decide) (by decide)
  exact ⟨h.1, h.2.1, h.2.2.1 "nut" (by decide), h.2.2.2⟩

/-- C9: deleting an existing operator nulls the operator reference on every
machine that held it, deletes no machine, and leaves every other machine
column (and the sensors table) unchanged. -/
theorem c9_delete_operator_nulls_refs (id : String) (db : DB)
    (hex : ∃ o ∈ db.operators, o.id = id) :
    deleteOperatorH id db = .ok (deleteOperatorRaw id db) ∧
    (deleteOperatorRaw id db).machines.length = db.machines.length ∧
    (deleteOperatorRaw id db).machines.map (fun m => m.id)
      = db.machines.map (fun m => m.id) ∧
    (deleteOperatorRaw id db).machines.map (fun m => (m.name, m.status))
      = db.machines.map (fun m => (m.name, m.status)) ∧
    (deleteOperatorRaw id db).machines.map (fun m => m.operatorId)
      = db.machines.map (fun m =>
          if m.operatorId == some id then none else m.operatorId) ∧
    (deleteOperatorRaw id db).sensors = db.sensors := by
  have hany : (db.operators.any (fun o => o.id == id)) = true := by
    obtain ⟨o, ho, hid⟩ := hex
    exact List.any_eq_true.mpr ⟨o, ho, by simp [hid]⟩
  refine ⟨by rw [deleteOperatorH, if_pos hany], ?_, ?_, ?_, ?_, rfl⟩
  · rw [show (deleteOperatorRaw id db).machines
        = db.machines.map (clearOperatorRef id) from rfl, List.length_map]
  · rw [show (deleteOperatorRaw id db).machines
        = db.machines.map (clearOperatorRef id) from rfl, List.map_map]
    exact List.map_congr_left (fun m _ => clearOperatorRef_id id m)
  · rw [show (deleteOperatorRaw id db).machines
        = db.machines.map (clearOperatorRef id) from rfl, List.map_map]
    exact List.map_congr_left (fun m _ => clearOperatorRef_name_status id m)
  · rw [show (deleteOperatorRaw id db).machines
        = db.machines.map (clearOperatorRef id) from rfl, List.map_map]
    exact List.map_congr_left (fun m _ => clearOperatorRef_opid id m)

/-- C9 witness: deleting `op1` nulls only `mach1`'s reference and keeps both
machines with their other columns. -/
theorem c9_witness :
    deleteOperatorH "op1" dbOps = .ok (deleteOperatorRaw "op1" dbOps) ∧
    (deleteOperatorRaw "op1" dbOps).machines.map (fun m => m.operatorId)
      = dbOps.machines.map (fun m =>
          if m.operatorId == some "op1" then none else m.operatorId) ∧
    (deleteOperatorRaw "op1" dbOps).machines.length
      = dbOps.machines.length := by
  have h := c9_delete_operator_nulls_refs "op1" dbOps (by decide)
  exact ⟨h.1, h.2.2.2.2.1, h.2.1⟩

/-- C10: a successful create stores the maintenance row with status
`"scheduled"` whatever the request said, while the response echoes the
request's status unchanged — stored and returned status can differ. -/
theorem c10_status_stored_vs_echoed {newId : String} {req : Maintenance}
    {db db' : DB} {resp : Maintenance}
    (h : createMaintenance newId req db = (.ok resp, db')) :
    resp.status = req.status ∧
    db'.maintenance = db.maintenance ++
      [⟨newId, req.machineId, req.date, req.description, "scheduled"⟩] := by
  obtain ⟨-, hresp, hmaint, -, -, -, -, -⟩ := createMaintenance_ok_facts h
  exact ⟨by rw [hresp], hmaint⟩

/-- C10 witness: the request asks for status `"done"`; the stored row says
`"scheduled"`, the echoed response says `"done"`. -/
theorem c10_witness :
    ({ reqBolt5 with id := "m2" } : Maintenance).status = reqBolt5.status ∧
    (createMaintenance "m2" reqBolt5 dbSample).2.maintenance
      = dbSample.maintenance ++
        [⟨"m2", reqBolt5.machineId, reqBolt5.date, reqBolt5.description,
          "scheduled"⟩] ∧
    reqBolt5.status = "done" ∧ ("done" : String) ≠ "scheduled" := by
  have h := @c10_status_stored_vs_echoed "m2" reqBolt5 dbSample
    (createMaintenance "m2" reqBolt5 dbSample).2
    { reqBolt5 with id := "m2" } (by rfl)
  exact ⟨h.1, h.2, by decide, by decide⟩
